import Mathlib

/-!
Shallow embedding of the TypeScript Lambda CRUD handler
(`src/typescript/src/types.ts`, `utils.ts`, `index.ts`).

Modelling conventions:
* JavaScript runtime values reachable through this pipeline are embedded as
  `JsValue`.  Numbers are carried as `Int`; every function modelled here
  treats numbers opaquely (only `typeof` matters), so the carrier is
  irrelevant to the verified properties.
* Strings are Lean `String`s (sequences of characters); the regex ranges
  and the truncation of the sanitizer act on those characters.
* `Result<T>` with the default error type `Error` is `Result`, with the
  error taxonomy of `types.ts` embedded as `JsError`.
* JS objects are association lists in insertion order.  JS objects never
  carry duplicate keys; the functions of the model iterate entries exactly as
  `Object.entries` does, so they are faithful on all JS-reachable inputs.
-/

/-- Embedding of the JavaScript values flowing through the pipeline. -/
inductive JsValue where
  | str : String → JsValue
  | num : Int → JsValue
  | bool : Bool → JsValue
  | null : JsValue
  | undefined : JsValue
  | arr : List JsValue → JsValue
  | obj : List (String × JsValue) → JsValue

/-- Embedding of the error classes of `types.ts`.
`validationError` is `class ValidationError extends Error` with
`constructor(field, value) { super(`Validation failed for field ${field}`) }`;
`authorizationError` and `notFoundError` are the other two custom classes;
`plainError` is a bare `new Error(message)`. -/
inductive JsError where
  | validationError (field : String) (value : JsValue)
  | authorizationError (message : String)
  | notFoundError (resource : String) (id : String)
  | plainError (message : String)

/-- Embeds `error.name` as set by each constructor. -/
def JsError.name : JsError → String
  | .validationError _ _ => "ValidationError"
  | .authorizationError _ => "AuthorizationError"
  | .notFoundError _ _ => "NotFoundError"
  | .plainError _ => "Error"

/-- Embeds `error.message` as set by each constructor (`types.ts` lines 16–41). -/
def JsError.message : JsError → String
  | .validationError field _ => "Validation failed for field " ++ field
  | .authorizationError m => m
  | .notFoundError resource id => resource ++ " with id " ++ id ++ " not found"
  | .plainError m => m

/-- The `value` property stored by the `ValidationError` constructor. -/
def JsError.errValue : JsError → Option JsValue
  | .validationError _ v => some v
  | _ => none

/-- Embeds `Result<T>` of `types.ts` with the default error parameter `Error`. -/
inductive Result (α : Type) where
  | ok : α → Result α
  | err : JsError → Result α

/-- The five members of the `HttpMethod` union type. -/
inductive HttpMethod where
  | GET | POST | PUT | PATCH | DELETE
deriving DecidableEq

/-- The string each `HttpMethod` member denotes. -/
def HttpMethod.toStr : HttpMethod → String
  | .GET => "GET"
  | .POST => "POST"
  | .PUT => "PUT"
  | .PATCH => "PATCH"
  | .DELETE => "DELETE"

/-- The four members of the `CrudOperation` union type. -/
inductive CrudOperation where
  | CREATE | READ | UPDATE | DELETE
deriving DecidableEq

/-- The string each `CrudOperation` member denotes. -/
def CrudOperation.toStr : CrudOperation → String
  | .CREATE => "CREATE"
  | .READ => "READ"
  | .UPDATE => "UPDATE"
  | .DELETE => "DELETE"

/-- Embeds the `isString` type guard of `types.ts`: `typeof value` being `"string"`. -/
def isString : JsValue → Bool
  | .str _ => true
  | _ => false

/-- Embeds `isValidHttpMethod` of `types.ts`: the value is a string equal to one of
the five accepted method names (case-sensitive). -/
def isValidHttpMethod (v : JsValue) : Bool :=
  isString v && (match v with
    | .str s => ["GET", "POST", "PUT", "PATCH", "DELETE"].contains s
    | _ => false)

/-- Recover the `HttpMethod` member a valid method string denotes. -/
def parseHttpMethod (s : String) : Option HttpMethod :=
  if s = "GET" then some .GET
  else if s = "POST" then some .POST
  else if s = "PUT" then some .PUT
  else if s = "PATCH" then some .PATCH
  else if s = "DELETE" then some .DELETE
  else none

/-- Embeds `mapHttpMethodToCrudOperation` of `utils.ts` (lines 88–109). -/
def mapHttpMethodToCrudOperation (method : HttpMethod) (hasResourceId : Bool) :
    Result CrudOperation :=
  match method with
  | .GET => .ok .READ
  | .POST => .ok .CREATE
  | .PUT | .PATCH =>
      if hasResourceId then .ok .UPDATE
      else .err (.validationError "resourceId"
        (.str "Resource ID required for update operations"))
  | .DELETE =>
      if hasResourceId then .ok .DELETE
      else .err (.validationError "resourceId"
        (.str "Resource ID required for delete operations"))

/-- The character class `[\x00-\x1F\x7F-\x9F]` of `sanitizeInput`. -/
def isJsControlChar (c : Char) : Bool :=
  c.toNat ≤ 0x1F || (0x7F ≤ c.toNat && c.toNat ≤ 0x9F)

/-- Embeds `MAX_INPUT_LENGTH` of `utils.ts`. -/
def MAX_INPUT_LENGTH : Nat := 10000

/-- Embeds `sanitizeInput` of `utils.ts` (lines 230–241): delete every character of
the control ranges, then truncate to at most `MAX_INPUT_LENGTH` characters. -/
def sanitizeInput (input : String) : String :=
  ⟨(input.toList.filter (fun c => !isJsControlChar c)).take MAX_INPUT_LENGTH⟩

/-- The JS test `typeof v` = `"object"`: true for plain objects, arrays and `null`. -/
def jsTypeofObject : JsValue → Bool
  | .obj _ => true
  | .arr _ => true
  | .null => true
  | _ => false

/-- The key test of `validateAndSanitizeObject`: keys coming from
`Object.entries` are strings, so `!isString(key)` is always false and the
check reduces to the length bounds. -/
def validKey (k : String) : Bool :=
  !(k.length = 0 || k.length > 100)

mutual

/-- Embeds `validateAndSanitizeObject` of `utils.ts` (lines 248–284).  `typeof`
treats arrays and `null` as objects, so a non-null array is walked entry by
entry exactly like a plain object: `Object.entries` of an array yields the
decimal index strings `"0"`, `"1"`, … paired with the elements, and the
accumulator `sanitized` is a plain record. -/
def validateAndSanitizeObject : JsValue → Result (List (String × JsValue))
  | .obj entries => sanitizeEntries entries
  | .arr elems => sanitizeElems 0 elems
  | _ => .err (.validationError "object" (.str "Expected an object"))

/-- The `for (const [key, value] of entries)` loop of
`validateAndSanitizeObject`, building the `sanitized` record in entry
order and returning the first failure immediately. -/
def sanitizeEntries : List (String × JsValue) → Result (List (String × JsValue))
  | [] => .ok []
  | (k, v) :: rest =>
      if !validKey k then
        .err (.validationError "key" (.str ("Invalid key: " ++ k)))
      else
        match sanitizeValue v with
        | .err e => .err e
        | .ok v2 =>
            match sanitizeEntries rest with
            | .err e => .err e
            | .ok r => .ok ((k, v2) :: r)

/-- The same loop run over `Object.entries` of an array: the key of the
element at position `i` is the decimal string for `i`. -/
def sanitizeElems (i : Nat) : List JsValue → Result (List (String × JsValue))
  | [] => .ok []
  | v :: rest =>
      let k := toString i
      if !validKey k then
        .err (.validationError "key" (.str ("Invalid key: " ++ k)))
      else
        match sanitizeValue v with
        | .err e => .err e
        | .ok v2 =>
            match sanitizeElems (i + 1) rest with
            | .err e => .err e
            | .ok r => .ok ((k, v2) :: r)

/-- The per-value branch of the loop body: strings are sanitized, non-null
`typeof`-objects (plain objects and arrays) are recursed into — the
recursive result is stored as a record — and every other value is stored
unchanged. -/
def sanitizeValue : JsValue → Result JsValue
  | .str s => .ok (.str (sanitizeInput s))
  | .obj es =>
      match sanitizeEntries es with
      | .err e => .err e
      | .ok r => .ok (.obj r)
  | .arr es =>
      match sanitizeElems 0 es with
      | .err e => .err e
      | .ok r => .ok (.obj r)
  | v => .ok v

end

/-- Step 1 of `extractResourceId` of `utils.ts` (lines 116–141): try the fixed
candidate keys in order and return the first whose value is a non-empty
string. -/
def firstCandidate (pp : List (String × JsValue)) : List String → Option String
  | [] => none
  | name :: rest =>
      match pp.lookup name with
      | some (.str v) => if v.length > 0 then some v else firstCandidate pp rest
      | _ => firstCandidate pp rest

/-- Step 2 of `extractResourceId`: scan all entries in insertion order for a
key whose lower-cased form contains `"id"` with a non-empty string value. -/
def fallbackScan : List (String × JsValue) → Option String
  | [] => none
  | (k, v) :: rest =>
      match v with
      | .str s =>
          if decide ("id".toList <:+: k.toLower.toList) && s.length > 0 then some s
          else fallbackScan rest
      | _ => fallbackScan rest

/-- The fixed candidate list of `extractResourceId`. -/
def idParameterNames : List String := ["id", "resourceId", "itemId", "entityId"]

/-- Embeds `extractResourceId` of `utils.ts`: `none` pathParameters (absent mapping)
yields `none`; otherwise the candidate pass, then the fallback scan. -/
def extractResourceId (pathParameters : Option (List (String × JsValue))) :
    Option String :=
  match pathParameters with
  | none => none
  | some pp =>
      match firstCandidate pp idParameterNames with
      | some v => some v
      | none => fallbackScan pp

/-- The part of `APIGatewayProxyEventV2` the pipeline reads:
`event.requestContext.http.method`, `event.pathParameters` (a record whose
values are strings or `undefined`, embedded as `JsValue`) and `event.body`. -/
structure LambdaEvent where
  method : String
  pathParameters : Option (List (String × JsValue))
  body : Option String

/-- Embeds `RequestContext` of `types.ts`, restricted to the fields the pipeline
computes (the raw `event` and `context` fields are carried through
unchanged and are omitted from the embedded record). -/
structure RequestContext where
  operation : CrudOperation
  resourceId : Option String

/-- The API Gateway result produced by `createApiResponse`.  The TS code
stores `JSON.stringify(body)`; the embedding keeps the structured value
(the serialized form determines and is determined by it on this
outputs of this pipeline). -/
structure ApiResponse where
  statusCode : Nat
  headers : List (String × String)
  body : JsValue

/-- Embeds `STANDARD_HEADERS` of `types.ts` (lines 121–129). -/
def STANDARD_HEADERS : List (String × String) :=
  [("Content-Type", "application/json"),
   ("X-Content-Type-Options", "nosniff"),
   ("X-Frame-Options", "DENY"),
   ("X-XSS-Protection", "1; mode=block"),
   ("Strict-Transport-Security", "max-age=31536000; includeSubDomains"),
   ("Cache-Control", "no-store, no-cache, must-revalidate"),
   ("Pragma", "no-cache")]

/-- Embeds `createApiResponse` of `utils.ts` (lines 22–35): the headers are
`{...STANDARD_HEADERS, ...headers}`; every call in this code base passes no
extra headers, so the spread is the standard set followed by the (empty)
extras. -/
def createApiResponse (statusCode : Nat) (body : JsValue)
    (headers : List (String × String)) : ApiResponse :=
  { statusCode := statusCode, headers := STANDARD_HEADERS ++ headers, body := body }

/-- Embeds `successResponse` of `utils.ts` (lines 43–51). -/
def successResponse (data : JsValue) (statusCode : Nat) : ApiResponse :=
  createApiResponse statusCode (.obj [("success", .bool true), ("data", data)]) []

/-- Embeds `errorResponse` of `utils.ts` (lines 59–80) applied to an `Error`
instance: the envelope carries the `name` and `message` of the error. -/
def errorResponse (error : JsError) (statusCode : Nat) : ApiResponse :=
  createApiResponse statusCode
    (.obj [("success", .bool false),
           ("error", .obj [("name", .str error.name),
                           ("message", .str error.message)])]) []

/-- Embeds `parseRequestBody` of `utils.ts` (lines 148–162).  `JSON.parse` is a
runtime library routine, not code of this repository; the embedding takes
it as a parameter `jsonParse` returning either the parsed value or the
message of the thrown `SyntaxError`.  Every theorem below holds for every
such parameter. -/
def parseRequestBody (jsonParse : String → Except String JsValue)
    (body : Option String) : Result JsValue :=
  match body with
  | none => .ok (.obj [])
  | some s =>
      if s = "" then .ok (.obj [])
      else
        match jsonParse s with
        | .ok parsed => .ok parsed
        | .error msg => .err (.validationError "body" (.str ("Invalid JSON: " ++ msg)))

/-- Embeds `createRequestContext` of `utils.ts` (lines 170–199). -/
def createRequestContext (event : LambdaEvent) : Result RequestContext :=
  if !isValidHttpMethod (.str event.method) then
    .err (.validationError "method" (.str ("Invalid HTTP method: " ++ event.method)))
  else
    match parseHttpMethod event.method with
    | none => .err (.validationError "method" (.str ("Invalid HTTP method: " ++ event.method)))
    | some m =>
        let resourceId := extractResourceId event.pathParameters
        match mapHttpMethodToCrudOperation m resourceId.isSome with
        | .err e => .err e
        | .ok op => .ok { operation := op, resourceId := resourceId }

/-- JS truthiness of `event.body` (a string or `undefined`): truthy iff
present and non-empty. -/
def bodyTruthy : Option String → Bool
  | none => false
  | some s => s ≠ ""

/-- The body-handling block of `handler` (`index.ts` lines 52–66): run only
when `event.body` is truthy; parse, then sanitize, failing fast. -/
def handlerBody (jsonParse : String → Except String JsValue)
    (body : Option String) : Result (Option (List (String × JsValue))) :=
  if bodyTruthy body then
    match parseRequestBody jsonParse body with
    | .err e => .err e
    | .ok parsed =>
        match validateAndSanitizeObject parsed with
        | .err e => .err e
        | .ok sanitized => .ok (some sanitized)
  else .ok none

/-- The success payload of `handler` (`index.ts` lines 94–99); `now` stands
for `new Date().toISOString()`, a clock reading passed in as a parameter. -/
def successData (ctx : RequestContext) (now : String) : JsValue :=
  .obj [("message", .str (ctx.operation.toStr ++ " operation logged successfully")),
        ("operation", .str ctx.operation.toStr),
        ("resourceId", match ctx.resourceId with
                       | some r => .str r
                       | none => .undefined),
        ("timestamp", .str now)]

/-- Embeds `handler` of `index.ts` (lines 26–132).  The `handleCreate` /
`handleRead` / `handleUpdate` / `handleDelete` branches only write to the
console and return no data, so they leave the envelope unchanged; no
reachable branch of the embedded pipeline throws, so the `catch` arms
(400/403/404/500) are not exercised by pipeline-produced values. -/
def handler (jsonParse : String → Except String JsValue) (now : String)
    (event : LambdaEvent) : ApiResponse :=
  match createRequestContext event with
  | .err e => errorResponse e 400
  | .ok ctx =>
      match handlerBody jsonParse event.body with
      | .err e => errorResponse e 400
      | .ok _requestBody => successResponse (successData ctx now) 200

/-- Read `error.message` out of an envelope body. -/
def envelopeErrorMessage (resp : ApiResponse) : Option String :=
  match resp.body with
  | .obj fields =>
      match fields.lookup "error" with
      | some (.obj errFields) =>
          match errFields.lookup "message" with
          | some (.str m) => some m
          | _ => none
      | _ => none
  | _ => none


lemma sanitizeInput_toList (s : String) :
    (sanitizeInput s).toList =
      (s.toList.filter (fun c => !isJsControlChar c)).take MAX_INPUT_LENGTH := rfl

lemma sanitizeInput_length_le (s : String) :
    (sanitizeInput s).length ≤ MAX_INPUT_LENGTH := by
  show ((s.toList.filter (fun c => !isJsControlChar c)).take MAX_INPUT_LENGTH).length
      ≤ MAX_INPUT_LENGTH
  rw [List.length_take]
  exact min_le_left _ _

lemma sanitizeInput_no_control (s : String) :
    ∀ c ∈ (sanitizeInput s).toList, isJsControlChar c = false := by
  intro c hc
  rw [sanitizeInput_toList] at hc
  have hc2 := List.take_subset _ _ hc
  have hp := List.of_mem_filter hc2
  simpa using hp

lemma sanitizeInput_fixed (t : String)
    (hc : ∀ c ∈ t.toList, isJsControlChar c = false)
    (hl : t.length ≤ MAX_INPUT_LENGTH) :
    sanitizeInput t = t := by
  have h1 : t.toList.filter (fun c => !isJsControlChar c) = t.toList :=
    List.filter_eq_self.mpr (fun a ha => by simpa using hc a ha)
  have h2 : t.toList.take MAX_INPUT_LENGTH = t.toList :=
    List.take_of_length_le hl
  show String.mk ((t.toList.filter (fun c => !isJsControlChar c)).take MAX_INPUT_LENGTH) = t
  rw [h1, h2]
  rfl

lemma sanitizeInput_idem (s : String) :
    sanitizeInput (sanitizeInput s) = sanitizeInput s :=
  sanitizeInput_fixed _ (sanitizeInput_no_control s) (sanitizeInput_length_le s)

/-- C1: for every method among GET, POST, PUT, PATCH, DELETE and both values
of `hasResourceId`, `mapHttpMethodToCrudOperation` returns a `Result` (it is
total, never a thrown fault): GET yields ok READ and POST yields ok CREATE
regardless of `hasResourceId`; PUT and PATCH yield ok UPDATE exactly when
`hasResourceId` holds and otherwise a `ValidationError` failure; DELETE
yields ok DELETE exactly when `hasResourceId` holds and otherwise a
`ValidationError` failure. -/
theorem mapHttpMethod_classification : ∀ b : Bool,
    mapHttpMethodToCrudOperation .GET b = .ok .READ ∧
    mapHttpMethodToCrudOperation .POST b = .ok .CREATE ∧
    mapHttpMethodToCrudOperation .PUT b = (if b then .ok .UPDATE else
      .err (.validationError "resourceId"
        (.str "Resource ID required for update operations"))) ∧
    mapHttpMethodToCrudOperation .PATCH b = (if b then .ok .UPDATE else
      .err (.validationError "resourceId"
        (.str "Resource ID required for update operations"))) ∧
    mapHttpMethodToCrudOperation .DELETE b = (if b then .ok .DELETE else
      .err (.validationError "resourceId"
        (.str "Resource ID required for delete operations"))) := by
  intro b
  cases b <;> exact ⟨rfl, rfl, rfl, rfl, rfl⟩

/-- C6: for every string `s`, the result of `sanitizeInput s` has length at
most 10000 and contains no character in the ranges 0x00–0x1F or
0x7F–0x9F. -/
theorem sanitizeInput_bounded_and_clean : ∀ s : String,
    (sanitizeInput s).length ≤ 10000 ∧
    ∀ c ∈ (sanitizeInput s).toList,
      ¬(c.toNat ≤ 0x1F ∨ (0x7F ≤ c.toNat ∧ c.toNat ≤ 0x9F)) := by
  intro s
  refine ⟨sanitizeInput_length_le s, ?_⟩
  intro c hc
  have h := sanitizeInput_no_control s c hc
  simp [isJsControlChar] at h
  omega

/-- Witness for C6 at the concrete input `"ab"` and character `a`. -/
theorem sanitizeInput_bounded_and_clean_witness :
    (sanitizeInput "ab").length ≤ 10000 ∧
    ¬(Char.toNat "a".head ≤ 0x1F ∨
      (0x7F ≤ Char.toNat "a".head ∧ Char.toNat "a".head ≤ 0x9F)) :=
  ⟨(sanitizeInput_bounded_and_clean "ab").1,
   (sanitizeInput_bounded_and_clean "ab").2 "a".head (by decide)⟩

lemma string_length_pos {s : String} (h : s ≠ "") : 0 < s.length := by
  cases s with
  | mk data =>
    cases data with
    | nil => simp at h
    | cons c cs => simp [String.length]

/-- C8: `extractResourceId` checks the fixed candidate keys in order
`id`, `resourceId`, `itemId`, `entityId` before any fallback scan,
returning the first candidate whose value is a non-empty string.  A
non-empty string under key `id` wins no matter what else the mapping
holds; with `id` absent, `resourceId` wins next; the fixed candidates are
consulted before the fallback scan (second concrete input); in particular
`{itemId: "A", id: "B"}` yields `"B"`. -/
theorem extractResourceId_priority :
    (∀ pp v, pp.lookup "id" = some (JsValue.str v) → v ≠ "" →
      extractResourceId (some pp) = some v) ∧
    (∀ pp v, pp.lookup "id" = none →
      pp.lookup "resourceId" = some (JsValue.str v) → v ≠ "" →
      extractResourceId (some pp) = some v) ∧
    extractResourceId (some [("itemId", .str "A"), ("id", .str "B")]) = some "B" ∧
    extractResourceId (some [("userId", .str "X"), ("entityId", .str "Y")]) = some "Y" := by
  refine ⟨?_, ?_, rfl, rfl⟩
  · intro pp v hlk hne
    have hv : v.length > 0 := string_length_pos hne
    simp [extractResourceId, idParameterNames, firstCandidate, hlk, hv]
  · intro pp v hid hlk hne
    have hv : v.length > 0 := string_length_pos hne
    simp [extractResourceId, idParameterNames, firstCandidate, hid, hlk, hv]

/-- Witness for C8 at the concrete mappings of its two general parts. -/
theorem extractResourceId_priority_witness :
    extractResourceId (some [("id", .str "B"), ("itemId", .str "A")]) = some "B" ∧
    extractResourceId (some [("resourceId", .str "R")]) = some "R" :=
  ⟨extractResourceId_priority.1 [("id", .str "B"), ("itemId", .str "A")] "B" rfl (by decide),
   extractResourceId_priority.2.1 [("resourceId", .str "R")] "R" rfl rfl (by decide)⟩

lemma not_infix_of_mem_left {c : Char} {l₁ l₂ : List Char}
    (h1 : c ∈ l₁) (h2 : c ∉ l₂) : decide (l₁ <:+: l₂) = false := by
  rw [decide_eq_false_iff_not]
  exact fun h => h2 (h.subset h1)

/-- C9: the `ValidationError` constructed from `(f, v)` has message exactly
`"Validation failed for field "` followed by `f`; the second constructor
argument is stored in the `value` property only — the message does not
depend on it, and for every `ValidationError` the pipeline produces (the
resource-id failures of the classifier, the method failure of the context
builder, the JSON failure of the body parser, and the object and key
failures of the sanitizer) the text of the stored value does not occur in
the message. -/
theorem validationError_message_shape :
    (∀ f v, (JsError.validationError f v).message =
      "Validation failed for field " ++ f) ∧
    (∀ f v, (JsError.validationError f v).errValue = some v) ∧
    (∀ f v w, (JsError.validationError f v).message =
      (JsError.validationError f w).message) ∧
    (decide ("Resource ID required for update operations".toList <:+:
      (JsError.validationError "resourceId"
        (.str "Resource ID required for update operations")).message.toList)
      = false) ∧
    (decide ("Resource ID required for delete operations".toList <:+:
      (JsError.validationError "resourceId"
        (.str "Resource ID required for delete operations")).message.toList)
      = false) ∧
    (decide ("Expected an object".toList <:+:
      (JsError.validationError "object"
        (.str "Expected an object")).message.toList) = false) ∧
    (∀ m, decide (("Invalid HTTP method: " ++ m).toList <:+:
      (JsError.validationError "method"
        (.str ("Invalid HTTP method: " ++ m))).message.toList) = false) ∧
    (∀ msg, decide (("Invalid JSON: " ++ msg).toList <:+:
      (JsError.validationError "body"
        (.str ("Invalid JSON: " ++ msg))).message.toList) = false) ∧
    (∀ k, decide (("Invalid key: " ++ k).toList <:+:
      (JsError.validationError "key"
        (.str ("Invalid key: " ++ k))).message.toList) = false) := by
  refine ⟨fun f v => rfl, fun f v => rfl, fun f v w => rfl,
    by decide, by decide, by decide, ?_, ?_, ?_⟩
  · intro m
    apply not_infix_of_mem_left (c := Char.ofNat 73)
    · show Char.ofNat 73 ∈ ("Invalid HTTP method: " ++ m).toList
      rw [show ("Invalid HTTP method: " ++ m).toList =
        "Invalid HTTP method: ".toList ++ m.toList from String.data_append ..]
      exact List.mem_append_left _ (by decide)
    · rw [show (JsError.validationError "method"
          (.str ("Invalid HTTP method: " ++ m))).message =
        "Validation failed for field method" from rfl]
      decide
  · intro msg
    apply not_infix_of_mem_left (c := Char.ofNat 73)
    · show Char.ofNat 73 ∈ ("Invalid JSON: " ++ msg).toList
      rw [show ("Invalid JSON: " ++ msg).toList =
        "Invalid JSON: ".toList ++ msg.toList from String.data_append ..]
      exact List.mem_append_left _ (by decide)
    · rw [show (JsError.validationError "body"
          (.str ("Invalid JSON: " ++ msg))).message =
        "Validation failed for field body" from rfl]
      decide
  · intro k
    apply not_infix_of_mem_left (c := Char.ofNat 73)
    · show Char.ofNat 73 ∈ ("Invalid key: " ++ k).toList
      rw [show ("Invalid key: " ++ k).toList =
        "Invalid key: ".toList ++ k.toList from String.data_append ..]
      exact List.mem_append_left _ (by decide)
    · rw [show (JsError.validationError "key"
          (.str ("Invalid key: " ++ k))).message =
        "Validation failed for field key" from rfl]
      decide

/-- C7: every envelope the handler returns carries exactly the seven fixed
security headers with exactly these values; `errorResponse` — the function
producing the 400, 403, 404 and 500 envelopes — and `successResponse`
always attach the same `STANDARD_HEADERS`, so every exit path does. -/
theorem handler_security_headers :
    (∀ jsonParse now event, (handler jsonParse now event).headers =
      [("Content-Type", "application/json"),
       ("X-Content-Type-Options", "nosniff"),
       ("X-Frame-Options", "DENY"),
       ("X-XSS-Protection", "1; mode=block"),
       ("Strict-Transport-Security", "max-age=31536000; includeSubDomains"),
       ("Cache-Control", "no-store, no-cache, must-revalidate"),
       ("Pragma", "no-cache")]) ∧
    (∀ e s, (errorResponse e s).headers = STANDARD_HEADERS) ∧
    (∀ d s, (successResponse d s).headers = STANDARD_HEADERS) := by
  have hstd : STANDARD_HEADERS =
      [("Content-Type", "application/json"),
       ("X-Content-Type-Options", "nosniff"),
       ("X-Frame-Options", "DENY"),
       ("X-XSS-Protection", "1; mode=block"),
       ("Strict-Transport-Security", "max-age=31536000; includeSubDomains"),
       ("Cache-Control", "no-store, no-cache, must-revalidate"),
       ("Pragma", "no-cache")] := rfl
  have herr : ∀ e s, (errorResponse e s).headers = STANDARD_HEADERS := by
    intro e s
    simp [errorResponse, createApiResponse]
  have hsuc : ∀ d s, (successResponse d s).headers = STANDARD_HEADERS := by
    intro d s
    simp [successResponse, createApiResponse]
  have hh : ∀ p now event, (handler p now event).headers = STANDARD_HEADERS := by
    intro p now event
    unfold handler
    cases hc : createRequestContext event with
    | err e => exact herr e 400
    | ok ctx =>
        cases hb : handlerBody p event.body with
        | err e => exact herr e 400
        | ok rb => exact hsuc _ 200
  exact ⟨fun p now event => (hh p now event).trans hstd, herr, hsuc⟩

/-- C10: an empty-string body is treated exactly like an absent body by the
handler — parsing and sanitization are skipped and the response envelope
is identical to that of the bodiless request — and `parseRequestBody`
returns ok with the empty record for an absent or empty body, for every
behaviour of the JSON parser. -/
theorem emptyBody_equals_absentBody :
    (∀ jsonParse now m pp,
      handler jsonParse now ⟨m, pp, some ""⟩ = handler jsonParse now ⟨m, pp, none⟩) ∧
    (∀ jsonParse, parseRequestBody jsonParse none = .ok (.obj []) ∧
      parseRequestBody jsonParse (some "") = .ok (.obj [])) :=
  ⟨fun _ _ _ _ => rfl, fun _ => ⟨rfl, rfl⟩⟩

/-- C2, behaviour of the code at the failing input: PUT with no resource id
does fail with a `ValidationError` whose field is `resourceId` and the
handler does return status 400 — but the envelope message is
`Validation failed for field resourceId` (its constructor discards the
second argument from the message), in which the claimed text
`Resource ID required` does not occur. -/
theorem putWithoutResourceId_behavior : ∀ jsonParse now,
    mapHttpMethodToCrudOperation .PUT false =
      .err (.validationError "resourceId"
        (.str "Resource ID required for update operations")) ∧
    (handler jsonParse now ⟨"PUT", none, none⟩).statusCode = 400 ∧
    envelopeErrorMessage (handler jsonParse now ⟨"PUT", none, none⟩) =
      some "Validation failed for field resourceId" ∧
    decide ("Resource ID required".toList <:+:
      "Validation failed for field resourceId".toList) = false := by
  intro p now
  exact ⟨rfl, rfl, rfl, by decide⟩

/-- C4, behaviour of the code at the failing input: method CONNECT makes the
handler return status 400, but the envelope message is
`Validation failed for field method`, in which the claimed text
`Invalid HTTP method` does not occur. -/
theorem connectMethod_behavior : ∀ jsonParse now pp b,
    (handler jsonParse now ⟨"CONNECT", pp, b⟩).statusCode = 400 ∧
    envelopeErrorMessage (handler jsonParse now ⟨"CONNECT", pp, b⟩) =
      some "Validation failed for field method" ∧
    decide ("Invalid HTTP method".toList <:+:
      "Validation failed for field method".toList) = false := by
  intro p now pp b
  exact ⟨rfl, rfl, by decide⟩

lemma sanitize_fixed_aux : ∀ n : Nat,
    (∀ v w, sizeOf v ≤ n → sanitizeValue v = .ok w → sanitizeValue w = .ok w) ∧
    (∀ es r, sizeOf es ≤ n → sanitizeEntries es = .ok r → sanitizeEntries r = .ok r) ∧
    (∀ i es r, sizeOf es ≤ n → sanitizeElems i es = .ok r → sanitizeEntries r = .ok r) := by
  intro n
  induction n with
  | zero =>
      refine ⟨?_, ?_, ?_⟩
      · intro v w hsz _
        cases v <;> simp at hsz
      · intro es r hsz _
        cases es <;> simp at hsz
      · intro i es r hsz _
        cases es <;> simp at hsz
  | succ n ih =>
      obtain ⟨ihV, ihE, ihL⟩ := ih
      refine ⟨?_, ?_, ?_⟩
      · intro v w hsz hok
        cases v with
        | str s =>
            simp only [sanitizeValue] at hok
            cases hok
            simp [sanitizeValue, sanitizeInput_idem]
        | obj es =>
            simp only [sanitizeValue] at hok
            cases hes : sanitizeEntries es with
            | err e => rw [hes] at hok; cases hok
            | ok r =>
                rw [hes] at hok
                cases hok
                have hr : sanitizeEntries r = .ok r :=
                  ihE es r (by simp at hsz; omega) hes
                simp [sanitizeValue, hr]
        | arr es =>
            simp only [sanitizeValue] at hok
            cases hes : sanitizeElems 0 es with
            | err e => rw [hes] at hok; cases hok
            | ok r =>
                rw [hes] at hok
                cases hok
                have hr : sanitizeEntries r = .ok r :=
                  ihL 0 es r (by simp at hsz; omega) hes
                simp [sanitizeValue, hr]
        | num x =>
            simp only [sanitizeValue] at hok
            cases hok
            simp [sanitizeValue]
        | bool b =>
            simp only [sanitizeValue] at hok
            cases hok
            simp [sanitizeValue]
        | null =>
            simp only [sanitizeValue] at hok
            cases hok
            simp [sanitizeValue]
        | undefined =>
            simp only [sanitizeValue] at hok
            cases hok
            simp [sanitizeValue]
      · intro es r hsz hok
        cases es with
        | nil =>
            simp only [sanitizeEntries] at hok
            cases hok
            rfl
        | cons kv rest =>
            obtain ⟨k, v⟩ := kv
            simp only [sanitizeEntries] at hok
            cases hvk : validKey k with
            | false => rw [hvk] at hok; simp at hok
            | true =>
                rw [hvk] at hok
                simp only [Bool.not_true, Bool.false_eq_true, if_false] at hok
                cases hv : sanitizeValue v with
                | err e => rw [hv] at hok; simp at hok
                | ok v2 =>
                    rw [hv] at hok
                    cases hr : sanitizeEntries rest with
                    | err e => rw [hr] at hok; simp at hok
                    | ok r2 =>
                        rw [hr] at hok
                        cases hok
                        have h1 : sanitizeValue v2 = .ok v2 :=
                          ihV v v2 (by simp at hsz; omega) hv
                        have h2 : sanitizeEntries r2 = .ok r2 :=
                          ihE rest r2 (by simp at hsz; omega) hr
                        simp [sanitizeEntries, hvk, h1, h2]
      · intro i es r hsz hok
        cases es with
        | nil =>
            simp only [sanitizeElems] at hok
            cases hok
            rfl
        | cons v rest =>
            simp only [sanitizeElems] at hok
            cases hvk : validKey (toString i) with
            | false => rw [hvk] at hok; simp at hok
            | true =>
                rw [hvk] at hok
                simp only [Bool.not_true, Bool.false_eq_true, if_false] at hok
                cases hv : sanitizeValue v with
                | err e => rw [hv] at hok; simp at hok
                | ok v2 =>
                    rw [hv] at hok
                    cases hr : sanitizeElems (i + 1) rest with
                    | err e => rw [hr] at hok; simp at hok
                    | ok r2 =>
                        rw [hr] at hok
                        cases hok
                        have h1 : sanitizeValue v2 = .ok v2 :=
                          ihV v v2 (by simp at hsz; omega) hv
                        have h2 : sanitizeEntries r2 = .ok r2 :=
                          ihL (i + 1) rest r2 (by simp at hsz; omega) hr
                        simp [sanitizeEntries, hvk, h1, h2]

/-- C5: sanitization is idempotent.  Inputs are inductive `JsValue`s, hence
acyclic by construction; whenever `validateAndSanitizeObject x` succeeds
with record `v`, running it again on `v` succeeds and returns `v`
unchanged, and `sanitizeInput` is a fixed point on its own output (control
characters already removed, length already at most 10000). -/
theorem sanitization_idempotent :
    (∀ x v, validateAndSanitizeObject x = .ok v →
      validateAndSanitizeObject (.obj v) = .ok v) ∧
    (∀ s, sanitizeInput (sanitizeInput s) = sanitizeInput s) := by
  constructor
  · intro x v hok
    cases x with
    | obj es =>
        have h := (sanitize_fixed_aux (sizeOf es)).2.1 es v le_rfl
          (by simpa [validateAndSanitizeObject] using hok)
        simpa [validateAndSanitizeObject] using h
    | arr es =>
        have h := (sanitize_fixed_aux (sizeOf es)).2.2 0 es v le_rfl
          (by simpa [validateAndSanitizeObject] using hok)
        simpa [validateAndSanitizeObject] using h
    | str s => simp [validateAndSanitizeObject] at hok
    | num x => simp [validateAndSanitizeObject] at hok
    | bool b => simp [validateAndSanitizeObject] at hok
    | null => simp [validateAndSanitizeObject] at hok
    | undefined => simp [validateAndSanitizeObject] at hok
  · exact sanitizeInput_idem

/-- Witness for C5 at the concrete input `{a: "b", n: 1}`. -/
theorem sanitization_idempotent_witness :
    validateAndSanitizeObject (.obj [("a", .str "b"), ("n", .num 1)]) =
      .ok [("a", .str "b"), ("n", .num 1)] ∧
    validateAndSanitizeObject (.obj [("a", .str "b"), ("n", .num 1)]) =
      .ok [("a", .str "b"), ("n", .num 1)] :=
  ⟨rfl, sanitization_idempotent.1 (.obj [("a", .str "b"), ("n", .num 1)])
    [("a", .str "b"), ("n", .num 1)] rfl⟩

/-- Counterexample to C3: in the accepted object `{a: ["x"]}`, the array
value does not appear in the successful result unchanged — the result maps
`a` to the index-keyed record `{"0": "x"}`, which is not an array. -/
theorem array_passthrough_counterexample :
    validateAndSanitizeObject (.obj [("a", .arr [.str "x"])]) =
      .ok [("a", .obj [("0", .str "x")])] ∧
    JsValue.obj [("0", .str "x")] ≠ JsValue.arr [.str "x"] :=
  ⟨rfl, fun h => JsValue.noConfusion h⟩

/-- C3 as amended: array values do not pass through unchanged — because
`typeof` classifies arrays as objects, an array value is recursively
sanitized as an object, appearing in the result as a record keyed by the
decimal index strings `"0"`, `"1"`, …, with string elements passed through
`sanitizeInput` and other elements handled exactly like object values. -/
theorem array_recursively_sanitized (k s : String) (hk : validKey k = true) :
    validateAndSanitizeObject (.obj [(k, .arr [.str s])]) =
      .ok [(k, .obj [("0", .str (sanitizeInput s))])] ∧
    validateAndSanitizeObject (.obj [("a", .arr [.str "x", .num 1])]) =
      .ok [("a", .obj [("0", .str "x"), ("1", .num 1)])] := by
  constructor
  · have h1 : sanitizeValue (.arr [.str s]) =
        .ok (.obj [("0", .str (sanitizeInput s))]) := rfl
    simp [sanitizeEntries, validateAndSanitizeObject, hk, h1]
  · rfl

/-- Witness for the amended C3 at key `a` and element `x`. -/
theorem array_recursively_sanitized_witness :
    validateAndSanitizeObject (.obj [("a", .arr [.str "x"])]) =
      .ok [("a", .obj [("0", .str (sanitizeInput "x"))])] :=
  (array_recursively_sanitized "a" "x" rfl).1
